import Mathlib

/-!
# sshdog: bootstrap and lifecycle layer (`sshdog.go`)

A shallow embedding of the port resolution (`getPort`, the unbundled block of
`main`) and of the two start closures (`daemonStart`, `daemonStartDefault`),
together with the parts of the Go standard library they call
(`strconv.Atoi`, `strconv.Itoa`, `strings.TrimSpace`, the `int` to `int16`
conversion, `os.Getenv` and `os.Setenv`).

Go's `int` is taken to be 64 bits wide.  Diagnostic output written by
`dbg.Debug` changes no control flow and is not modelled.
-/

namespace Sshdog

/-! ## Go standard library -/

/-- The two error kinds of `strconv`: `ErrSyntax` and `ErrRange`. -/
inductive NumError where
  | ErrSyntax
  | ErrRange
  deriving DecidableEq

/-- Largest `uint64`. -/
def maxUint64 : Nat := 2 ^ 64 - 1

/-- The constant `cutoff` of `strconv.ParseUint` in base 10: the smallest
number whose product with the base overflows `uint64`. -/
def cutoff10 : Nat := maxUint64 / 10 + 1

/-- The digit loop of `strconv.ParseUint(s, 10, 64)`, reading the bytes left to
right with the running value `n`.  A byte that is not a decimal digit is a
syntax error with value 0; an overflow is a range error with value
`maxUint64`. -/
def parseUintLoop : List Char → Nat → Nat × Option NumError
  | [], n => (n, none)
  | c :: cs, n =>
    if 48 ≤ c.toNat ∧ c.toNat ≤ 57 then
      if cutoff10 ≤ n then (maxUint64, some NumError.ErrRange)
      else
        let n1 := n * 10 + (c.toNat - 48)
        if maxUint64 < n1 then (maxUint64, some NumError.ErrRange)
        else parseUintLoop cs n1
    else (0, some NumError.ErrSyntax)

/-- Go's `strconv.ParseUint(s, 10, 64)`: the empty string is a syntax error. -/
def ParseUint (s : List Char) : Nat × Option NumError :=
  match s with
  | [] => (0, some NumError.ErrSyntax)
  | _ :: _ => parseUintLoop s 0

/-- Go's `strconv.ParseInt(s, 10, 0)` on a 64-bit platform: an optional sign,
then `ParseUint`; a magnitude outside the `int64` range (which includes the
`maxUint64` that `ParseUint` returns with its own range error) is a range
error with the value clamped to the nearest bound. -/
def ParseInt (s : List Char) : Int × Option NumError :=
  match s with
  | [] => (0, some NumError.ErrSyntax)
  | c :: rest =>
    let neg : Bool := c = '-'
    let body := if c = '+' ∨ c = '-' then rest else c :: rest
    match ParseUint body with
    | (_, some NumError.ErrSyntax) => (0, some NumError.ErrSyntax)
    | (un, _) =>
      if neg = false ∧ 2 ^ 63 ≤ un then (2 ^ 63 - 1, some NumError.ErrRange)
      else if neg = true ∧ 2 ^ 63 < un then (-(2 ^ 63), some NumError.ErrRange)
      else (if neg then -(un : Int) else (un : Int), none)

/-- Go's `strconv.Atoi`: the value and the error (`none` is `err == nil`).
The fast path Go takes for short strings computes the same result as
`ParseInt`, which is what is modelled. -/
def Atoi (s : String) : Int × Option NumError :=
  ParseInt s.data

/-- The decimal digits of `u`, most significant first, put in front of `acc`;
`fuel` bounds the number of digits produced. -/
def formatDecimal : Nat → Nat → List Char → List Char
  | 0, _, acc => acc
  | fuel + 1, u, acc =>
    if u < 10 then Nat.digitChar u :: acc
    else formatDecimal fuel (u / 10) (Nat.digitChar (u % 10) :: acc)

/-- Go's `strconv.Itoa` on an `int64`: at most 19 digits, after a minus sign
for a negative number. -/
def Itoa (i : Int) : String :=
  if i < 0 then String.mk ('-' :: formatDecimal 20 i.natAbs [])
  else String.mk (formatDecimal 20 i.natAbs [])

/-- Go's conversion `int16(x)` of an `int`: the low 16 bits, read in two's
complement. -/
def int16 (x : Int) : Int :=
  (x + 32768) % 65536 - 32768

/-- Go's `unicode.IsSpace`. -/
def isSpace (c : Char) : Bool :=
  decide (c.toNat ∈ [0x09, 0x0A, 0x0B, 0x0C, 0x0D, 0x20, 0x85, 0xA0, 0x1680,
    0x2028, 0x2029, 0x202F, 0x205F, 0x3000]) || decide (0x2000 ≤ c.toNat ∧ c.toNat ≤ 0x200A)

/-- Go's `strings.TrimSpace`: leading and trailing white space removed. -/
def TrimSpace (s : String) : String :=
  String.mk ((s.data.dropWhile isSpace).reverse.dropWhile isSpace).reverse

/-- The process environment: the value of each variable that is set. -/
abbrev Environ := String → Option String

/-- Go's `os.Getenv`: the empty string for a variable that is not set. -/
def Getenv (env : Environ) (key : String) : String :=
  (env key).getD ""

/-- Go's `os.Setenv` (for a well-formed key and value it cannot fail). -/
def Setenv (env : Environ) (key value : String) : Environ :=
  fun k => if k = key then some value else env k

/-! ## `main`, unbundled mode: port resolution -/

/-- The local `defaultPort` of `main`. -/
def defaultPort : Int := 8022

/-- The candidate `sshdPort` of `main` before the range check: the flag value
`*port` when positive, else the integer in `SSHDOG_PORT` when that is non-empty
and parses, else the zero value. -/
def main_candidate (port : Int) (env : Environ) : Int :=
  if port > 0 then port
  else if Getenv env "SSHDOG_PORT" ≠ "" then
    match Atoi (Getenv env "SSHDOG_PORT") with
    | (val, none) => val
    | (_, some _) => 0
  else 0

/-- The resolved `sshdPort` of `main`: the candidate, replaced by `defaultPort`
when it is `<= 1024` or `>= 65535`. -/
def main_sshdPort (port : Int) (env : Environ) : Int :=
  let sshdPort := main_candidate port env
  if sshdPort ≤ 1024 ∨ sshdPort ≥ 65535 then defaultPort else sshdPort

/-- The environment and the log of `os.Setenv` calls. -/
structure OsState where
  environ : Environ
  setenvLog : List (String × String)

/-- The write-back of `main`: `SSHDOG_PORT` is set to `strconv.Itoa(sshdPort)`
unless it already holds that string. -/
def main_writeBack (sshdPort : Int) (os : OsState) : OsState :=
  let portStr := Itoa sshdPort
  if Getenv os.environ "SSHDOG_PORT" ≠ portStr then
    { environ := Setenv os.environ "SSHDOG_PORT" portStr,
      setenvLog := os.setenvLog ++ [("SSHDOG_PORT", portStr)] }
  else os

/-- Port resolution of `main` in unbundled mode: the resolved port and the
process state after the write-back. -/
def main_resolve (port : Int) (os : OsState) : Int × OsState :=
  let sshdPort := main_sshdPort port os.environ
  (sshdPort, main_writeBack sshdPort os)

/-- An environment in which only `SSHDOG_PORT` is set. -/
def envWith (value : String) : Environ :=
  Setenv (fun _ => none) "SSHDOG_PORT" value

/-! ## Bundled mode: the resource bundle and `getPort` -/

/-- A `rice.Box`: the content of each entry the bundle holds. -/
structure Box where
  entries : String → Option String

/-- The method `box.Bytes(name)`: the entry's content, or an error (`none`). -/
def Box.Bytes (box : Box) (name : String) : Option String :=
  box.entries name

/-- The method `box.String(name)`: the same lookup, read as a string. -/
def Box.String (box : Box) (name : String) : Option String :=
  box.entries name

/-- The second half of `getPort`: the `port` entry of the bundle, trimmed and
parsed, converted to `int16`; the default 2222 when the entry is missing or
does not parse. -/
def getPort_fromBox (box : Box) : Int :=
  match box.String "port" with
  | some portData =>
    match Atoi (TrimSpace portData) with
    | (port, none) => int16 port
    | (_, some _) => 2222
  | none => 2222

/-- The function `getPort`, with `os.Args` as `Args`: the first positional
argument, parsed and converted to `int16`, when there is one and it parses;
otherwise the bundle is consulted. -/
def getPort (Args : List String) (box : Box) : Int :=
  if Args.length > 1 then
    match Atoi (Args.getD 1 "") with
    | (port, none) => int16 port
    | (_, some _) => getPort_fromBox box
  else getPort_fromBox box

/-- The function `fileExists`. -/
def fileExists (box : Box) (name : String) : Bool :=
  (box.Bytes name).isSome

/-- The function `shouldDaemonize`. -/
def shouldDaemonize (box : Box) : Bool :=
  fileExists box "daemon"

/-- The function `beQuiet`. -/
def beQuiet (box : Box) : Bool :=
  fileExists box "quiet"

/-! ## The network service, an external collaborator -/

/-- The methods of the server the start closures call, as a state machine over
the server states `σ`.  A `Bool` result is `true` when the call returns a
non-nil error. -/
structure Server (σ : Type) where
  NewServer : σ
  AddHostkey : σ → String → σ × Bool
  RandomHostkey : σ → σ × Bool
  AddAuthorizedKeys : σ → String → σ
  ListenAndServe : σ → Int → σ × Bool

/-- A call made on the server, with its argument and whether it failed. -/
inductive Call where
  | AddHostkey (keyData : String) (failed : Bool)
  | RandomHostkey (failed : Bool)
  | AddAuthorizedKeys (authData : String)
  | ListenAndServe (port : Int) (failed : Bool)
  deriving DecidableEq

/-- The two control handles: the method values `server.Wait` and
`server.Stop`. -/
inductive Handle where
  | Wait
  | Stop
  deriving DecidableEq

/-- What a start closure leaves behind: its two results (`none` is nil), the
calls it made on the server, in order, and the server's final state. -/
structure StartResult (σ : Type) where
  waitFunc : Option Handle
  stopFunc : Option Handle
  calls : List Call
  server : σ

/-- A bare `return` of a start closure: both results nil. -/
def StartResult.aborted {σ : Type} (calls : List Call) (server : σ) : StartResult σ :=
  { waitFunc := none, stopFunc := none, calls := calls, server := server }

/-- The statement `return server.Wait, server.Stop`. -/
def StartResult.started {σ : Type} (calls : List Call) (server : σ) : StartResult σ :=
  { waitFunc := some Handle.Wait, stopFunc := some Handle.Stop, calls := calls,
    server := server }

/-- Whether the call is a `ListenAndServe`. -/
def Call.isListen : Call → Bool
  | Call.ListenAndServe _ _ => true
  | _ => false

/-- Whether the call is an `AddAuthorizedKeys`. -/
def Call.isAddAuthorizedKeys : Call → Bool
  | Call.AddAuthorizedKeys _ => true
  | _ => false

/-- Whether the call is an `AddHostkey`, successful or not. -/
def Call.isAddHostkey : Call → Bool
  | Call.AddHostkey _ _ => true
  | _ => false

/-- Whether the call installed a host key: an `AddHostkey` or a
`RandomHostkey` that returned no error. -/
def Call.installsHostkey : Call → Bool
  | Call.AddHostkey _ failed => !failed
  | Call.RandomHostkey failed => !failed
  | _ => false

/-- Whether the call is a `RandomHostkey` that returned no error. -/
def Call.isRandomHostkeyOk : Call → Bool
  | Call.RandomHostkey failed => !failed
  | _ => false

/-- Whether the call is a `ListenAndServe` that returned an error. -/
def Call.isFailedListen : Call → Bool
  | Call.ListenAndServe _ failed => failed
  | _ => false

/-! ## `daemonStart` (bundled mode) -/

/-- The loop of `daemonStart` over `keyNames`, on the state
`(server, hasHostKeys, calls)`: each name the bundle has is passed to
`AddHostkey`, and `hasHostKeys` is set whether or not the call failed. -/
def daemonStart_hostkeys {σ : Type} (srv : Server σ) (mainBox : Box) :
    List String → σ × Bool × List Call → σ × Bool × List Call
  | [], st => st
  | keyName :: rest, st =>
    match mainBox.Bytes keyName with
    | some keyData =>
      let r := srv.AddHostkey st.1 keyData
      daemonStart_hostkeys srv mainBox rest
        (r.1, true, st.2.2 ++ [Call.AddHostkey keyData r.2])
    | none => daemonStart_hostkeys srv mainBox rest st

/-- The rest of `daemonStart` after the host keys: the `authorized_keys` entry
is required; then `ListenAndServe(getPort(mainBox))`, whose result is
discarded, and the handles are returned. -/
def daemonStart_serve {σ : Type} (srv : Server σ) (Args : List String) (mainBox : Box)
    (server : σ) (calls : List Call) : StartResult σ :=
  match mainBox.Bytes "authorized_keys" with
  | some authData =>
    let server1 := srv.AddAuthorizedKeys server authData
    let port := getPort Args mainBox
    let r := srv.ListenAndServe server1 port
    StartResult.started
      (calls ++ [Call.AddAuthorizedKeys authData, Call.ListenAndServe port r.2]) r.1
  | none => StartResult.aborted calls server

/-- The function `daemonStart`; the package variables `keyNames` and `mainBox`
and `os.Args` are parameters. -/
def daemonStart {σ : Type} (srv : Server σ) (keyNames : List String) (Args : List String)
    (mainBox : Box) : StartResult σ :=
  let st := daemonStart_hostkeys srv mainBox keyNames (srv.NewServer, false, [])
  if st.2.1 = false then
    let r := srv.RandomHostkey st.1
    if r.2 then StartResult.aborted (st.2.2 ++ [Call.RandomHostkey true]) r.1
    else daemonStart_serve srv Args mainBox r.1 (st.2.2 ++ [Call.RandomHostkey false])
  else daemonStart_serve srv Args mainBox st.1 st.2.2

/-! ## `daemonStartDefault` (unbundled mode) -/

/-- The file system as the closure sees it: `Stat` is `true` when `os.Stat`
returns no error, `ReadFile` is the data `os.ReadFile` returns (its error is
discarded by the code). -/
structure FileSystem where
  Stat : String → Bool
  ReadFile : String → String

/-- The end of `daemonStartDefault`: `SSHDOG_PORT` is read back and parsed
(the error is discarded), the value is converted to `int16` and passed to
`ListenAndServe`; an error from the listener aborts. -/
def daemonStartDefault_listen {σ : Type} (srv : Server σ) (env : Environ)
    (server : σ) (calls : List Call) : StartResult σ :=
  let port := (Atoi (Getenv env "SSHDOG_PORT")).1
  let r := srv.ListenAndServe server (int16 port)
  if r.2 then StartResult.aborted (calls ++ [Call.ListenAndServe (int16 port) true]) r.1
  else StartResult.started (calls ++ [Call.ListenAndServe (int16 port) false]) r.1

/-- The authorized-keys step of `daemonStartDefault`: `~/.ssh/authorized_keys`,
else `~/.ssh/id_rsa.pub`, else abort. -/
def daemonStartDefault_auth {σ : Type} (srv : Server σ) (fs : FileSystem)
    (userHome : String) (env : Environ) (server : σ) (calls : List Call) : StartResult σ :=
  let authorizedKey := userHome ++ "/.ssh/authorized_keys"
  if fs.Stat authorizedKey then
    let authData := fs.ReadFile authorizedKey
    daemonStartDefault_listen srv env (srv.AddAuthorizedKeys server authData)
      (calls ++ [Call.AddAuthorizedKeys authData])
  else
    let authorizedKey := userHome ++ "/.ssh/id_rsa.pub"
    if fs.Stat authorizedKey then
      let authData := fs.ReadFile authorizedKey
      daemonStartDefault_listen srv env (srv.AddAuthorizedKeys server authData)
        (calls ++ [Call.AddAuthorizedKeys authData])
    else StartResult.aborted calls server

/-- The function `daemonStartDefault`; `userHome` is what `os.UserHomeDir`
returned. -/
def daemonStartDefault {σ : Type} (srv : Server σ) (fs : FileSystem) (userHome : String)
    (env : Environ) : StartResult σ :=
  let hostkey := userHome ++ "/.ssh/id_rsa"
  if fs.Stat hostkey then
    let keyData := fs.ReadFile hostkey
    let r := srv.AddHostkey srv.NewServer keyData
    daemonStartDefault_auth srv fs userHome env r.1 [Call.AddHostkey keyData r.2]
  else
    let r := srv.RandomHostkey srv.NewServer
    if r.2 then StartResult.aborted [Call.RandomHostkey true] r.1
    else daemonStartDefault_auth srv fs userHome env r.1 [Call.RandomHostkey false]

/-- The unbundled block of `main` run in the foreground (`-d` not given): the
port is resolved and written back, then `daemonStartDefault` is called in the
same process. -/
def main_foreground {σ : Type} (srv : Server σ) (fs : FileSystem) (userHome : String)
    (port : Int) (os : OsState) : StartResult σ × OsState :=
  let r := main_resolve port os
  (daemonStartDefault srv fs userHome r.2.environ, r.2)

/-- The port the closure hands to `ListenAndServe` when it reads `env`. -/
def listenPort (env : Environ) : Int :=
  int16 (Atoi (Getenv env "SSHDOG_PORT")).1

/-! ## Concrete collaborators used in examples -/

/-- A server on which every call succeeds. -/
def okServer : Server Unit :=
  { NewServer := (), AddHostkey := fun _ _ => ((), false),
    RandomHostkey := fun _ => ((), false), AddAuthorizedKeys := fun _ _ => (),
    ListenAndServe := fun _ _ => ((), false) }

/-- A server that rejects every host key file but can generate one. -/
def rejectingServer : Server Unit :=
  { NewServer := (), AddHostkey := fun _ _ => ((), true),
    RandomHostkey := fun _ => ((), false), AddAuthorizedKeys := fun _ _ => (),
    ListenAndServe := fun _ _ => ((), false) }

/-- A server whose listener cannot bind. -/
def unboundServer : Server Unit :=
  { NewServer := (), AddHostkey := fun _ _ => ((), false),
    RandomHostkey := fun _ => ((), false), AddAuthorizedKeys := fun _ _ => (),
    ListenAndServe := fun _ _ => ((), true) }

/-- A server that can neither load nor generate a host key. -/
def keylessServer : Server Unit :=
  { NewServer := (), AddHostkey := fun _ _ => ((), true),
    RandomHostkey := fun _ => ((), true), AddAuthorizedKeys := fun _ _ => (),
    ListenAndServe := fun _ _ => ((), false) }

/-- A bundle given by its list of entries. -/
def boxOf (entries : List (String × String)) : Box :=
  { entries := fun name => (entries.find? (fun e => e.1 = name)).map (fun e => e.2) }

/-- A file system given by its list of files. -/
def fsOf (files : List (String × String)) : FileSystem :=
  { Stat := fun path => files.any (fun f => f.1 = path),
    ReadFile := fun path => ((files.find? (fun f => f.1 = path)).map (fun f => f.2)).getD "" }

/-- The host-key entry names of the bundle. -/
def sampleKeyNames : List String :=
  ["ssh_host_dsa_key", "ssh_host_ecdsa_key", "ssh_host_rsa_key"]

/-! ## Specification-side vocabulary -/

/-- The candidate port as the specification words it: the flag value when it
is positive, otherwise the integer parsed from `SSHDOG_PORT`, otherwise 0. -/
def specCandidate (port : Int) (env : Environ) : Int :=
  if port > 0 then port
  else
    match Atoi (Getenv env "SSHDOG_PORT") with
    | (val, none) => val
    | (_, some _) => 0

/-- Scans the calls in order: `true` unless a `ListenAndServe` occurs before
the first call that satisfies `ok`. -/
def guarded (ok : Call → Bool) : List Call → Bool
  | [] => true
  | c :: cs => if ok c then true else if c.isListen then false else guarded ok cs

/-- An `AddHostkey` call, whatever its outcome, or a `RandomHostkey` call that
returned no error. -/
def Call.attemptsHostkey (c : Call) : Bool :=
  c.isAddHostkey || c.isRandomHostkeyOk

/-! ## Decimal round trip -/

theorem digitChar_toNat (d : Nat) (h : d < 10) : (Nat.digitChar d).toNat = 48 + d := by
  interval_cases d <;> rfl

theorem formatDecimal_acc (fuel u : Nat) (acc : List Char) :
    formatDecimal fuel u acc = formatDecimal fuel u [] ++ acc := by
  induction fuel generalizing u acc with
  | zero => simp [formatDecimal]
  | succ fuel ih =>
    unfold formatDecimal
    split
    · simp
    · rw [ih (u / 10) (Nat.digitChar (u % 10) :: acc), ih (u / 10) [Nat.digitChar (u % 10)]]
      simp

theorem formatDecimal_head (fuel u : Nat) (acc : List Char) :
    ∃ d tl, d < 10 ∧ formatDecimal (fuel + 1) u acc = Nat.digitChar d :: tl := by
  induction fuel generalizing u acc with
  | zero =>
    unfold formatDecimal
    split
    · exact ⟨u, acc, by assumption, rfl⟩
    · exact ⟨u % 10, acc, Nat.mod_lt _ (by decide), by simp [formatDecimal]⟩
  | succ fuel ih =>
    unfold formatDecimal
    split
    · exact ⟨u, acc, by assumption, rfl⟩
    · exact ih (u / 10) (Nat.digitChar (u % 10) :: acc)

theorem parseUintLoop_snoc (l : List Char) (c : Char) (a m : Nat)
    (h : parseUintLoop l a = (m, none)) :
    parseUintLoop (l ++ [c]) a = parseUintLoop [c] m := by
  induction l generalizing a with
  | nil => simp [parseUintLoop] at h; simp [h]
  | cons x xs ih =>
    simp only [List.cons_append]
    unfold parseUintLoop at h ⊢
    split at h
    · split at h
      · simp at h
      · simp only at h ⊢
        split at h
        · simp at h
        · rw [if_pos (by assumption), if_neg (by assumption), if_neg (by assumption)]
          exact ih _ h
    · simp at h

theorem parseUintLoop_digit (d m : Nat) (hd : d < 10) (hm : m < cutoff10)
    (hb : m * 10 + d ≤ maxUint64) :
    parseUintLoop [Nat.digitChar d] m = (m * 10 + d, none) := by
  have h1 := digitChar_toNat d hd
  simp only [parseUintLoop, h1]
  rw [if_pos (by omega), if_neg (by omega)]
  have : 48 + d - 48 = d := by omega
  rw [this, if_neg (by omega)]

theorem parseUintLoop_formatDecimal (fuel u : Nat) (hf : u < 10 ^ fuel) (hu : u ≤ maxUint64) :
    parseUintLoop (formatDecimal fuel u []) 0 = (u, none) := by
  induction fuel generalizing u with
  | zero =>
    have : u = 0 := by simpa using hf
    subst this
    rfl
  | succ fuel ih =>
    unfold formatDecimal
    split
    · rename_i h10
      have := parseUintLoop_digit u 0 h10 (by decide) (by simpa using hu)
      simpa using this
    · rename_i h10
      rw [formatDecimal_acc]
      have hdiv : u / 10 < 10 ^ fuel := by
        rw [Nat.div_lt_iff_lt_mul (by decide)]
        rw [pow_succ] at hf
        exact hf
      have hle : u / 10 ≤ maxUint64 := le_trans (Nat.div_le_self _ _) hu
      rw [parseUintLoop_snoc _ _ _ _ (ih (u / 10) hdiv hle)]
      have hc : u / 10 < cutoff10 := by
        unfold cutoff10
        have := Nat.div_le_div_right (c := 10) hu
        omega
      have := parseUintLoop_digit (u % 10) (u / 10) (Nat.mod_lt _ (by decide)) hc
        (by have := Nat.div_add_mod u 10; omega)
      rw [this]
      have := Nat.div_add_mod u 10
      congr 1
      omega

/-- Parsing the decimal string of a non-negative `int64` gives the number
back, with no error. -/
theorem Atoi_Itoa (n : Int) (h0 : 0 ≤ n) (h1 : n < 2 ^ 63) : Atoi (Itoa n) = (n, none) := by
  obtain ⟨k, rfl⟩ := Int.eq_ofNat_of_zero_le h0
  have hk : k < 2 ^ 63 := by exact_mod_cast h1
  unfold Itoa Atoi
  rw [if_neg (by omega)]
  simp only [Int.natAbs_ofNat]
  obtain ⟨d, tl, hd, hfd⟩ := formatDecimal_head 19 k []
  have hp := parseUintLoop_formatDecimal 20 k (by norm_num at hk ⊢; omega)
    (by unfold maxUint64; norm_num at hk ⊢; omega)
  rw [hfd] at hp ⊢
  have hne1 : Nat.digitChar d ≠ '-' := by
    intro hc
    have := digitChar_toNat d hd
    rw [hc] at this
    have h45 : ('-' : Char).toNat = 45 := rfl
    omega
  have hne2 : Nat.digitChar d ≠ '+' := by
    intro hc
    have := digitChar_toNat d hd
    rw [hc] at this
    have h43 : ('+' : Char).toNat = 43 := rfl
    omega
  simp only [ParseInt, ParseUint, hne1, hne2, or_self, if_false, hp, decide_False]
  have hk2 : k < 9223372036854775808 := by norm_num at hk; exact hk
  have : ¬ ((2 : Nat) ^ 63 ≤ k) := by omega
  simp [this, hk2]

/-- The decimal string of a number is not empty. -/
theorem Itoa_ne_empty (n : Int) : Itoa n ≠ "" := by
  unfold Itoa
  split
  · intro h
    have := congrArg String.data h
    simp at this
  · obtain ⟨d, tl, _, hfd⟩ := formatDecimal_head 19 n.natAbs []
    rw [hfd]
    intro h
    have := congrArg String.data h
    simp at this

/-! ## Auxiliary facts on the conversions -/

theorem Atoi_empty : Atoi "" = (0, some NumError.ErrSyntax) := rfl

theorem int16_of_fits (v : Int) (h0 : -32768 ≤ v) (h1 : v ≤ 32767) : int16 v = v := by
  unfold int16
  omega

theorem int16_range (x : Int) : -32768 ≤ int16 x ∧ int16 x ≤ 32767 := by
  unfold int16
  omega

theorem getPort_fromBox_range (box : Box) :
    -32768 ≤ getPort_fromBox box ∧ getPort_fromBox box ≤ 32767 := by
  unfold getPort_fromBox
  split
  · split
    · exact int16_range _
    · decide
  · decide

theorem getPort_range (Args : List String) (box : Box) :
    -32768 ≤ getPort Args box ∧ getPort Args box ≤ 32767 := by
  unfold getPort
  split
  · split
    · exact int16_range _
    · exact getPort_fromBox_range box
  · exact getPort_fromBox_range box

theorem main_candidate_eq_spec (port : Int) (env : Environ) :
    main_candidate port env = specCandidate port env := by
  unfold main_candidate specCandidate
  by_cases hp : port > 0
  · simp [hp]
  · simp only [hp, if_false]
    by_cases he : Getenv env "SSHDOG_PORT" = ""
    · simp [he, Atoi_empty]
    · simp [he]

theorem Getenv_Setenv (env : Environ) (key value : String) :
    Getenv (Setenv env key value) key = value := by
  simp [Getenv, Setenv]

theorem main_sshdPort_range (port : Int) (env : Environ) :
    1024 < main_sshdPort port env ∧ main_sshdPort port env < 65535 := by
  unfold main_sshdPort
  simp only
  split
  · decide
  · omega

theorem main_resolve_environ (port : Int) (os : OsState) :
    Getenv (main_resolve port os).2.environ "SSHDOG_PORT" = Itoa (main_resolve port os).1 := by
  simp only [main_resolve, main_writeBack]
  split
  · exact Getenv_Setenv _ _ _
  · rename_i h
    simpa using h

/-- For a resolved port that fits `int16`, the closure reads back the port
that `main` resolved. -/
theorem listenPort_of_fits (port : Int) (os : OsState)
    (h : (main_resolve port os).1 ≤ 32767) :
    listenPort (main_resolve port os).2.environ = (main_resolve port os).1 := by
  have hr := main_sshdPort_range port os.environ
  have hr1 : 1024 < (main_resolve port os).1 := hr.1
  unfold listenPort
  rw [main_resolve_environ, Atoi_Itoa _ (by omega) (by omega)]
  exact int16_of_fits _ (by omega) h

/-! ## Port resolution -/

/-- C1, as the code has it: in unbundled mode the port `main` resolves is
strictly between 1024 and 65535 for every flag value and every environment; in
bundled mode `getPort` checks no range, and its result is only known to be
strictly below 65535. -/
theorem resolved_port_bounds (port : Int) (os : OsState) (Args : List String) (box : Box) :
    (1024 < (main_resolve port os).1 ∧ (main_resolve port os).1 < 65535) ∧
      getPort Args box < 65535 := by
  refine ⟨main_sshdPort_range port os.environ, ?_⟩
  have := (getPort_range Args box).2
  omega

/-- C1 fails as stated: in bundled mode the positional argument `80` resolves
to port 80, which is not above 1024. -/
theorem getPort_privileged_port :
    getPort ["sshdog", "80"] (boxOf []) = 80 ∧
      ¬ (1024 < getPort ["sshdog", "80"] (boxOf []) ∧
        getPort ["sshdog", "80"] (boxOf []) < 65535) := by
  decide

/-- C2: in unbundled mode, whenever the selected candidate (the flag when
positive, else the parsed environment value, else 0) is not strictly between
1024 and 65535, the resolved port is 8022. -/
theorem unbundled_out_of_range_is_default (port : Int) (os : OsState)
    (h : ¬ (1024 < specCandidate port os.environ ∧ specCandidate port os.environ < 65535)) :
    (main_resolve port os).1 = 8022 := by
  show main_sshdPort port os.environ = 8022
  unfold main_sshdPort
  simp only [main_candidate_eq_spec]
  rw [if_pos (by omega)]
  rfl

theorem unbundled_out_of_range_is_default_witness :
    ¬ (1024 < specCandidate 65535 (envWith "9000") ∧
        specCandidate 65535 (envWith "9000") < 65535) ∧
      (main_resolve 65535 ⟨envWith "9000", []⟩).1 = 8022 :=
  ⟨by decide, unbundled_out_of_range_is_default 65535 ⟨envWith "9000", []⟩ (by decide)⟩

/-- C3: in unbundled mode a flag value strictly between 1024 and 65535 is the
resolved port, whatever `SSHDOG_PORT` holds. -/
theorem flag_in_range_wins (p : Int) (os : OsState) (h1 : 1024 < p) (h2 : p < 65535) :
    (main_resolve p os).1 = p := by
  show main_sshdPort p os.environ = p
  have hp : p > 0 := by omega
  simp only [main_sshdPort, main_candidate, hp, if_true]
  rw [if_neg (by omega)]

theorem flag_in_range_wins_witness :
    (1024 : Int) < 9000 ∧ (9000 : Int) < 65535 ∧
      (main_resolve 9000 ⟨envWith "7000", []⟩).1 = 9000 :=
  ⟨by decide, by decide, flag_in_range_wins 9000 ⟨envWith "7000", []⟩ (by decide) (by decide)⟩

/-- C8: with no flag and `SSHDOG_PORT` holding the decimal string of a port n
strictly between 1024 and 65535, resolution yields n and leaves the process
state untouched (no `Setenv`); for every input, `SSHDOG_PORT` afterwards
holds the decimal string of the resolved port, and either nothing was written
or the prior value differed and exactly that string was written. -/
theorem writeBack_only_on_change (port : Int) (os : OsState) :
    (∀ n : Int, 1024 < n → n < 65535 → Getenv os.environ "SSHDOG_PORT" = Itoa n →
        main_resolve 0 os = (n, os)) ∧
      Getenv (main_resolve port os).2.environ "SSHDOG_PORT" = Itoa (main_resolve port os).1 ∧
      ((main_resolve port os).2 = os ∨
        (Getenv os.environ "SSHDOG_PORT" ≠ Itoa (main_resolve port os).1 ∧
          (main_resolve port os).2.setenvLog =
            os.setenvLog ++ [("SSHDOG_PORT", Itoa (main_resolve port os).1)])) := by
  refine ⟨?_, ?_, ?_⟩
  · intro n h1 h2 henv
    have hparse : Atoi (Itoa n) = (n, none) := Atoi_Itoa n (by omega) (by omega)
    have hport : main_sshdPort 0 os.environ = n := by
      simp only [main_sshdPort, main_candidate, henv, hparse]
      simp only [gt_iff_lt, lt_self_iff_false, if_false, ne_eq, Itoa_ne_empty, not_false_eq_true,
        if_true]
      rw [if_neg (by omega)]
    simp only [main_resolve, hport, main_writeBack, henv]
    simp
  · exact main_resolve_environ port os
  · simp only [main_resolve, main_writeBack]
    split
    · rename_i h
      exact Or.inr ⟨h, rfl⟩
    · exact Or.inl rfl

theorem writeBack_only_on_change_witness :
    (main_resolve 0 ⟨envWith "9000", []⟩).1 = 9000 ∧
      (main_resolve 0 ⟨envWith "9000", []⟩).2.setenvLog = [] := by
  have h := (writeBack_only_on_change 0 ⟨envWith "9000", []⟩).1 9000 (by decide) (by decide)
    (by decide)
  rw [h]
  exact ⟨rfl, rfl⟩

/-- C10, as the code has it: a positive flag value that is not strictly
between 1024 and 65535 resolves to the compiled default 8022, whatever
`SSHDOG_PORT` holds; the environment is not consulted. -/
theorem bad_flag_yields_default (f : Int) (os : OsState) (hf : 0 < f)
    (hr : ¬ (1024 < f ∧ f < 65535)) : (main_resolve f os).1 = 8022 := by
  show main_sshdPort f os.environ = 8022
  have hp : f > 0 := hf
  simp only [main_sshdPort, main_candidate, hp, if_true]
  rw [if_pos (by omega)]
  rfl

theorem bad_flag_yields_default_witness :
    (0 : Int) < 80 ∧ ¬ ((1024 : Int) < 80 ∧ (80 : Int) < 65535) ∧
      (main_resolve 80 ⟨envWith "9000", []⟩).1 = 8022 :=
  ⟨by decide, by decide, bad_flag_yields_default 80 ⟨envWith "9000", []⟩ (by decide) (by decide)⟩

/-- C10 fails as stated: with the flag 80 and `SSHDOG_PORT=9000` the resolved
port is 8022, not the environment value 9000. -/
theorem bad_flag_ignores_environment :
    Getenv (envWith "9000") "SSHDOG_PORT" = Itoa 9000 ∧
      (main_resolve 80 ⟨envWith "9000", []⟩).1 = 8022 ∧
      (main_resolve 80 ⟨envWith "9000", []⟩).1 ≠ 9000 := by
  decide

/-- The precedence of `getPort`: a first positional argument that parses
decides the port alone, whatever the bundle holds; otherwise a `port` entry
whose trimmed content parses decides it; otherwise the port is 2222.  The
parsed value goes through the `int16` conversion in both places. -/
theorem getPort_precedence (Args : List String) (box : Box) :
    (∀ v : Int, 1 < Args.length → Atoi (Args.getD 1 "") = (v, none) →
        getPort Args box = int16 v) ∧
      (¬ (1 < Args.length ∧ (Atoi (Args.getD 1 "")).2 = none) →
        (∀ (portData : String) (n : Int), box.String "port" = some portData →
            Atoi (TrimSpace portData) = (n, none) → getPort Args box = int16 n) ∧
          ((∀ portData, box.String "port" = some portData →
              (Atoi (TrimSpace portData)).2 ≠ none) → getPort Args box = 2222)) := by
  refine ⟨?_, ?_⟩
  · intro v hlen hparse
    simp only [getPort, gt_iff_lt, hlen, if_true, hparse]
  · intro hno
    have hfall : getPort Args box = getPort_fromBox box := by
      unfold getPort
      split
      · rename_i hlen
        split
        · rename_i hparse
          exact absurd ⟨hlen, by rw [hparse]⟩ hno
        · rfl
      · rfl
    rw [hfall]
    refine ⟨?_, ?_⟩
    · intro portData n hbox hparse
      simp only [getPort_fromBox, hbox, hparse]
    · intro hbad
      unfold getPort_fromBox
      split
      · rename_i portData hbox
        split
        · rename_i hparse
          exact absurd (by rw [hparse]) (hbad portData hbox)
        · rfl
      · rfl

theorem getPort_precedence_witness :
    getPort ["sshdog"] (boxOf [("port", "3000\n")]) = 3000 :=
  (((getPort_precedence ["sshdog"] (boxOf [("port", "3000\n")])).2 (by decide)).1
    "3000\n" 3000 (by decide) (by decide)).trans (by decide)

/-- C9 fails on the code: the positional argument `40000`, a valid port,
parses as the integer 40000, yet `getPort` returns -25536; the same happens
to the bundle entry `40000` followed by a newline. -/
theorem getPort_truncates_valid_port :
    Atoi "40000" = (40000, none) ∧
      getPort ["sshdog", "40000"] (boxOf []) = -25536 ∧
      Atoi (TrimSpace "40000\n") = (40000, none) ∧
      getPort ["sshdog"] (boxOf [("port", "40000\n")]) = -25536 := by
  decide

/-! ## The start closures -/

theorem guarded_of_head (ok : Call → Bool) (l r : List Call) (hne : l ≠ [])
    (hall : ∀ c ∈ l, ok c = true) : guarded ok (l ++ r) = true := by
  cases l with
  | nil => exact absurd rfl hne
  | cons c cs =>
    have : ok c = true := hall c (List.mem_cons_self c cs)
    simp [guarded, this]

theorem daemonStart_hostkeys_inv {σ : Type} (srv : Server σ) (mainBox : Box)
    (keyNames : List String) (st : σ × Bool × List Call)
    (h1 : st.2.1 = false → st.2.2 = []) (h2 : ∀ c ∈ st.2.2, c.isAddHostkey = true)
    (h3 : st.2.1 = true → st.2.2 ≠ []) :
    ((daemonStart_hostkeys srv mainBox keyNames st).2.1 = false →
        (daemonStart_hostkeys srv mainBox keyNames st).2.2 = []) ∧
      (∀ c ∈ (daemonStart_hostkeys srv mainBox keyNames st).2.2, c.isAddHostkey = true) ∧
      ((daemonStart_hostkeys srv mainBox keyNames st).2.1 = true →
        (daemonStart_hostkeys srv mainBox keyNames st).2.2 ≠ []) := by
  induction keyNames generalizing st with
  | nil => exact ⟨h1, h2, h3⟩
  | cons keyName rest ih =>
    unfold daemonStart_hostkeys
    split
    · apply ih
      · intro h; simp at h
      · intro c hc
        simp only [List.mem_append, List.mem_singleton] at hc
        rcases hc with hc | hc
        · exact h2 c hc
        · subst hc; rfl
      · intro _; simp
    · exact ih st h1 h2 h3

theorem daemonStart_hostkeys_absent {σ : Type} (srv : Server σ) (mainBox : Box)
    (keyNames : List String) (st : σ × Bool × List Call)
    (h : ∀ k ∈ keyNames, mainBox.Bytes k = none) :
    daemonStart_hostkeys srv mainBox keyNames st = st := by
  induction keyNames generalizing st with
  | nil => rfl
  | cons keyName rest ih =>
    unfold daemonStart_hostkeys
    rw [h keyName (List.mem_cons_self _ _)]
    exact ih st (fun k hk => h k (List.mem_cons_of_mem _ hk))

theorem daemonStart_serve_calls {σ : Type} (srv : Server σ) (Args : List String)
    (mainBox : Box) (server : σ) (calls : List Call) :
    ∃ tl, (daemonStart_serve srv Args mainBox server calls).calls = calls ++ tl := by
  unfold daemonStart_serve
  split
  · exact ⟨_, rfl⟩
  · exact ⟨[], by simp [StartResult.aborted]⟩

theorem daemonStartDefault_auth_calls {σ : Type} (srv : Server σ) (fs : FileSystem)
    (userHome : String) (env : Environ) (server : σ) (calls : List Call) :
    ∃ tl, (daemonStartDefault_auth srv fs userHome env server calls).calls = calls ++ tl := by
  unfold daemonStartDefault_auth daemonStartDefault_listen
  simp only
  split
  · split
    · exact ⟨_, by simp only [StartResult.aborted, List.append_assoc]; rfl⟩
    · exact ⟨_, by simp only [StartResult.started, List.append_assoc]; rfl⟩
  · split
    · split
      · exact ⟨_, by simp only [StartResult.aborted, List.append_assoc]; rfl⟩
      · exact ⟨_, by simp only [StartResult.started, List.append_assoc]; rfl⟩
    · exact ⟨[], by simp [StartResult.aborted]⟩

theorem daemonStart_guarded {σ : Type} (srv : Server σ) (keyNames Args : List String)
    (mainBox : Box) (ok : Call → Bool) (hadd : ∀ c, c.isAddHostkey = true → ok c = true)
    (hrand : ok (Call.RandomHostkey false) = true) :
    guarded ok (daemonStart srv keyNames Args mainBox).calls = true := by
  have inv := daemonStart_hostkeys_inv srv mainBox keyNames (srv.NewServer, false, [])
    (fun _ => rfl) (fun c hc => by simp at hc) (fun h => by simp at h)
  unfold daemonStart
  simp only
  split
  · rename_i hflag
    rw [inv.1 hflag]
    split
    · simp [StartResult.aborted, guarded, Call.isListen]
    · obtain ⟨tl, htl⟩ := daemonStart_serve_calls srv Args mainBox
        (srv.RandomHostkey (daemonStart_hostkeys srv mainBox keyNames
          (srv.NewServer, false, [])).1).1 ([] ++ [Call.RandomHostkey false])
      rw [htl]
      exact guarded_of_head ok _ tl (by simp) (by simp [hrand])
  · rename_i hflag
    have hflag1 : (daemonStart_hostkeys srv mainBox keyNames (srv.NewServer, false, [])).2.1
        = true := by simpa using hflag
    obtain ⟨tl, htl⟩ := daemonStart_serve_calls srv Args mainBox
      (daemonStart_hostkeys srv mainBox keyNames (srv.NewServer, false, [])).1
      (daemonStart_hostkeys srv mainBox keyNames (srv.NewServer, false, [])).2.2
    rw [htl]
    exact guarded_of_head ok _ tl (inv.2.2 hflag1) (fun c hc => hadd c (inv.2.1 c hc))

theorem daemonStartDefault_guarded {σ : Type} (srv : Server σ) (fs : FileSystem)
    (userHome : String) (env : Environ) (ok : Call → Bool)
    (hadd : fs.Stat (userHome ++ "/.ssh/id_rsa") = true →
      ∀ c, c.isAddHostkey = true → ok c = true)
    (hrand : ok (Call.RandomHostkey false) = true) :
    guarded ok (daemonStartDefault srv fs userHome env).calls = true := by
  unfold daemonStartDefault
  simp only
  split
  · rename_i hstat
    obtain ⟨tl, htl⟩ := daemonStartDefault_auth_calls srv fs userHome env
      (srv.AddHostkey srv.NewServer (fs.ReadFile (userHome ++ "/.ssh/id_rsa"))).1
      [Call.AddHostkey (fs.ReadFile (userHome ++ "/.ssh/id_rsa"))
        (srv.AddHostkey srv.NewServer (fs.ReadFile (userHome ++ "/.ssh/id_rsa"))).2]
    rw [htl]
    exact guarded_of_head ok _ tl (by simp) (by
      intro c hc
      simp only [List.mem_singleton] at hc
      subst hc
      exact hadd hstat _ rfl)
  · split
    · simp [StartResult.aborted, guarded, Call.isListen]
    · obtain ⟨tl, htl⟩ := daemonStartDefault_auth_calls srv fs userHome env
        (srv.RandomHostkey srv.NewServer).1 [Call.RandomHostkey false]
      rw [htl]
      exact guarded_of_head ok _ tl (by simp) (by simp [hrand])

/-- When `ListenAndServe` reports an error, `daemonStartDefault` returns nil
handles. -/
theorem daemonStartDefault_listen_error {σ : Type} (srv : Server σ) (fs : FileSystem)
    (userHome : String) (env : Environ)
    (h : (daemonStartDefault srv fs userHome env).calls.any Call.isFailedListen = true) :
    (daemonStartDefault srv fs userHome env).waitFunc = none ∧
      (daemonStartDefault srv fs userHome env).stopFunc = none := by
  revert h
  unfold daemonStartDefault daemonStartDefault_auth daemonStartDefault_listen
  simp only
  split_ifs <;>
    simp_all [StartResult.aborted, StartResult.started, Call.isFailedListen]

/-- What the closures do ensure before `ListenAndServe`: an `AddHostkey` call
on a host-key source that was found, or a `RandomHostkey` call that returned no
error; and when no host-key source is found (no bundle entry among `keyNames`,
no `~/.ssh/id_rsa`), a `RandomHostkey` call that returned no error. -/
theorem listen_guarded_by_hostkey_attempt {σ : Type} (srv : Server σ)
    (keyNames Args : List String) (mainBox : Box) (fs : FileSystem) (userHome : String)
    (env : Environ) :
    guarded Call.attemptsHostkey (daemonStart srv keyNames Args mainBox).calls = true ∧
      guarded Call.attemptsHostkey (daemonStartDefault srv fs userHome env).calls = true ∧
      ((∀ k ∈ keyNames, mainBox.Bytes k = none) →
        guarded Call.isRandomHostkeyOk (daemonStart srv keyNames Args mainBox).calls = true) ∧
      (fs.Stat (userHome ++ "/.ssh/id_rsa") = false →
        guarded Call.isRandomHostkeyOk (daemonStartDefault srv fs userHome env).calls
          = true) := by
  refine ⟨?_, ?_, ?_, ?_⟩
  · exact daemonStart_guarded srv keyNames Args mainBox _
      (fun c hc => by simp [Call.attemptsHostkey, hc]) rfl
  · exact daemonStartDefault_guarded srv fs userHome env _
      (fun _ c hc => by simp [Call.attemptsHostkey, hc]) rfl
  · intro habsent
    have hst := daemonStart_hostkeys_absent srv mainBox keyNames (srv.NewServer, false, [])
      habsent
    unfold daemonStart
    simp only [hst, if_true]
    split
    · simp [StartResult.aborted, guarded, Call.isListen, Call.isRandomHostkeyOk]
    · obtain ⟨tl, htl⟩ := daemonStart_serve_calls srv Args mainBox
        (srv.RandomHostkey srv.NewServer).1 ([] ++ [Call.RandomHostkey false])
      rw [htl]
      exact guarded_of_head _ _ tl (by simp) (by simp [Call.isRandomHostkeyOk])
  · intro hstat
    exact daemonStartDefault_guarded srv fs userHome env _
      (fun h => by rw [hstat] at h; exact absurd h (by decide)) rfl

theorem listen_guarded_by_hostkey_attempt_witness :
    guarded Call.attemptsHostkey
        (daemonStart okServer sampleKeyNames ["sshdog"]
          (boxOf [("authorized_keys", "k")])).calls = true ∧
      guarded Call.isRandomHostkeyOk
        (daemonStart okServer sampleKeyNames ["sshdog"]
          (boxOf [("authorized_keys", "k")])).calls = true ∧
      guarded Call.isRandomHostkeyOk
        (daemonStartDefault okServer (fsOf [("/home/u/.ssh/authorized_keys", "k")]) "/home/u"
          (envWith "8022")).calls = true :=
  have h := listen_guarded_by_hostkey_attempt okServer sampleKeyNames ["sshdog"]
    (boxOf [("authorized_keys", "k")]) (fsOf [("/home/u/.ssh/authorized_keys", "k")])
    "/home/u" (envWith "8022")
  ⟨h.1, h.2.2.1 (by decide), h.2.2.2 (by decide)⟩

/-- C4 fails on the code: when the host key that is found is rejected by
`AddHostkey`, both closures go on to `ListenAndServe` with no host key
installed and without calling `RandomHostkey`. -/
theorem listens_without_installed_hostkey :
    (daemonStartDefault rejectingServer
        (fsOf [("/home/u/.ssh/id_rsa", "x"), ("/home/u/.ssh/authorized_keys", "k")])
        "/home/u" (envWith "8022")).calls
        = [Call.AddHostkey "x" true, Call.AddAuthorizedKeys "k",
            Call.ListenAndServe 8022 false] ∧
      (daemonStart rejectingServer sampleKeyNames ["sshdog"]
        (boxOf [("ssh_host_rsa_key", "x"), ("authorized_keys", "k")])).calls
        = [Call.AddHostkey "x" true, Call.AddAuthorizedKeys "k",
            Call.ListenAndServe 2222 false] ∧
      guarded Call.installsHostkey
        [Call.AddHostkey "x" true, Call.AddAuthorizedKeys "k",
          Call.ListenAndServe 8022 false] = false ∧
      guarded Call.installsHostkey
        [Call.AddHostkey "x" true, Call.AddAuthorizedKeys "k",
          Call.ListenAndServe 2222 false] = false := by
  decide

/-- C5 fails on `daemonStart`: with a listener that cannot bind, the closure
still returns the `Wait` and `Stop` handles, because the result of
`ListenAndServe` is discarded. -/
theorem daemonStart_ignores_listen_error :
    (daemonStart unboundServer sampleKeyNames ["sshdog"]
        (boxOf [("authorized_keys", "k")])).calls
        = [Call.RandomHostkey false, Call.AddAuthorizedKeys "k",
            Call.ListenAndServe 2222 true] ∧
      (daemonStart unboundServer sampleKeyNames ["sshdog"]
        (boxOf [("authorized_keys", "k")])).waitFunc = some Handle.Wait ∧
      (daemonStart unboundServer sampleKeyNames ["sshdog"]
        (boxOf [("authorized_keys", "k")])).stopFunc = some Handle.Stop := by
  decide

/-- C6: in `daemonStartDefault`, when neither `~/.ssh/authorized_keys` nor
`~/.ssh/id_rsa.pub` exists, both handles are nil and neither
`AddAuthorizedKeys` nor `ListenAndServe` is called, however host-key
resolution went. -/
theorem no_authorized_keys_aborts {σ : Type} (srv : Server σ) (fs : FileSystem)
    (userHome : String) (env : Environ)
    (h1 : fs.Stat (userHome ++ "/.ssh/authorized_keys") = false)
    (h2 : fs.Stat (userHome ++ "/.ssh/id_rsa.pub") = false) :
    (daemonStartDefault srv fs userHome env).waitFunc = none ∧
      (daemonStartDefault srv fs userHome env).stopFunc = none ∧
      (daemonStartDefault srv fs userHome env).calls.any Call.isAddAuthorizedKeys = false ∧
      (daemonStartDefault srv fs userHome env).calls.any Call.isListen = false := by
  unfold daemonStartDefault daemonStartDefault_auth
  simp only [h1, h2, Bool.false_eq_true, if_false]
  split_ifs <;>
    simp [StartResult.aborted, Call.isAddAuthorizedKeys, Call.isListen]

theorem no_authorized_keys_aborts_witness :
    (daemonStartDefault okServer (fsOf [("/home/u/.ssh/id_rsa", "x")]) "/home/u"
        (envWith "8022")).waitFunc = none ∧
      (daemonStartDefault okServer (fsOf [("/home/u/.ssh/id_rsa", "x")]) "/home/u"
        (envWith "8022")).stopFunc = none ∧
      (daemonStartDefault okServer (fsOf [("/home/u/.ssh/id_rsa", "x")]) "/home/u"
        (envWith "8022")).calls.any Call.isAddAuthorizedKeys = false ∧
      (daemonStartDefault okServer (fsOf [("/home/u/.ssh/id_rsa", "x")]) "/home/u"
        (envWith "8022")).calls.any Call.isListen = false :=
  no_authorized_keys_aborts okServer (fsOf [("/home/u/.ssh/id_rsa", "x")]) "/home/u"
    (envWith "8022") (by decide) (by decide)

/-- C7 fails on the code: with `-p 40000` the port `main` resolves and writes
to `SSHDOG_PORT` is 40000, and the closure, converting the value it reads back
to `int16`, calls `ListenAndServe` with -25536. -/
theorem handoff_truncates_high_port :
    (main_resolve 40000 ⟨fun _ => none, []⟩).1 = 40000 ∧
      Getenv (main_resolve 40000 ⟨fun _ => none, []⟩).2.environ "SSHDOG_PORT" = "40000" ∧
      listenPort (main_resolve 40000 ⟨fun _ => none, []⟩).2.environ = -25536 ∧
      (main_foreground okServer (fsOf [("/home/u/.ssh/authorized_keys", "k")]) "/home/u"
        40000 ⟨fun _ => none, []⟩).1.calls
        = [Call.RandomHostkey false, Call.AddAuthorizedKeys "k",
            Call.ListenAndServe (-25536) false] := by
  decide

end Sshdog
